import Mathlib

/-!
Verification development for the Pedster content pipeline.

Shallow embedding of the data model (pedster/utils/models.py), the base
processor (pedster/processors/base_processor.py), the fan-out processor
(pedster/processors/map_reduce_processor.py), the RSS feed catalog logic
(pedster/ingestors/rss_ingestor.py with pedster/utils/database.py), and the
two output sinks (pedster/outputs/imessage_output.py,
pedster/outputs/obsidian_output.py).

Modelling conventions:
- Python strings are modelled as Lean `String` (or `List Char` where
  character-level reasoning is needed, storing the same text).
- Python dict metadata (string keys, values used as strings by the code
  under study) is modelled as an association list with dict-assignment
  semantics (replace on existing key, append otherwise).
- Exceptions are modelled with `Except String`: a `.error e` value stands
  for a raised exception whose `str()` is `e`.
- Wall-clock instrumentation (the `track_metrics` decorator stamping
  execution times, and the `{:.2f}` float rendering of those times) is
  timing-nondeterministic and is left abstract: metric fields are carried
  as `Nat` values and never constrained by the theorems below.
-/

namespace Pedster

/-- Content type enum (models.py `ContentType`). -/
inductive ContentType where
  | text
  | audio
  | video
  | image
  | markdown
  | url
  | json
deriving DecidableEq, Repr

/-- String value of a content type, as in the Python `str`-valued enum. -/
def contentTypeStr : ContentType → String
  | .text => "text"
  | .audio => "audio"
  | .video => "video"
  | .image => "image"
  | .markdown => "markdown"
  | .url => "url"
  | .json => "json"

/-- Metrics record (models.py `MetricsData`).  Execution time is carried as
an abstract `Nat` (wall-clock values are not modelled). -/
structure MetricsData where
  execution_time_ms : Nat := 0
  tokens_in : Option Nat := none
  tokens_out : Option Nat := none
  call_count : Nat := 1
  errors : Nat := 0
deriving DecidableEq, Repr

/-- Canonical pipeline record (models.py `PipelineData`).  The `content`
payload and metadata values are modelled as strings; `timestamp` is an
abstract tick. -/
structure PipelineData where
  id : String
  content : String
  content_type : ContentType
  source : String
  timestamp : Nat := 0
  metadata : List (String × String) := []
  metrics : MetricsData := {}
deriving DecidableEq, Repr

/-- Result envelope (models.py `ProcessorResult`). -/
structure ProcessorResult where
  data : PipelineData
  success : Bool := true
  error_message : Option String := none
  metrics : MetricsData := {}
deriving DecidableEq, Repr

/-- Dictionary lookup on the metadata association list
(Python `metadata.get(k)` returning `None` when absent). -/
def metaLookup (k : String) (m : List (String × String)) : Option String :=
  (m.find? (fun kv => kv.1 = k)).map (fun kv => kv.2)

/-- Dictionary assignment on the metadata association list
(Python `metadata[k] = v`): replaces the value under an existing key,
appends a fresh binding otherwise. -/
def metaInsert (k v : String) (m : List (String × String)) : List (String × String) :=
  if m.any (fun kv => kv.1 = k) then
    m.map (fun kv => if kv.1 = k then (kv.1, v) else kv)
  else
    m ++ [(k, v)]

/-- A processor's accepted input kinds: the Python attribute is either a
single `ContentType` or a list of them
(base_processor.py `BaseProcessor.input_type`). -/
inductive InputSpec where
  | one (t : ContentType)
  | many (ts : List ContentType)
deriving DecidableEq, Repr

/-- A concrete processor as the base-class machinery sees it: its name, its
declared input/output kinds, and its `process` method.  A `.error e` result
of `run` stands for `process` raising an exception with message `e`. -/
structure ProcessorBase where
  name : String
  input_type : InputSpec
  output_type : ContentType
  run : PipelineData → Except String ProcessorResult

/-- base_processor.py `BaseProcessor.can_process`: membership when
`input_type` is a list, equality otherwise. -/
def canProcess (p : ProcessorBase) (d : PipelineData) : Bool :=
  match p.input_type with
  | .one t => d.content_type = t
  | .many ts => d.content_type ∈ ts

/-- base_processor.py `BaseProcessor.create_result`: deep-copies the input
record, overrides `content` when one is supplied, always retags
`content_type` with the supplied kind or (by default) the processor's
`output_type`, and wraps it with the given success flag and error message.
The first argument is the processor's declared `output_type`. -/
def createResult (outputType : ContentType) (d : PipelineData)
    (content : Option String) (contentType : Option ContentType)
    (success : Bool) (errorMessage : Option String) : ProcessorResult :=
  let newData : PipelineData :=
    { d with
      content := content.getD d.content
      content_type := contentType.getD outputType }
  { data := newData, success := success, error_message := errorMessage }

/-- base_processor.py `BaseProcessor.get_op` inner `_op`: checks
`can_process` first; on a content-kind mismatch returns a failure envelope
from `create_result` without calling `process`; otherwise calls `process`,
converting a raised exception into a failure envelope. -/
def opRun (p : ProcessorBase) (d : PipelineData) : ProcessorResult :=
  if canProcess p d then
    match p.run d with
    | .ok r => r
    | .error e => createResult p.output_type d none none false (some e)
  else
    createResult p.output_type d none none false
      (some ("Cannot handle data of type " ++ contentTypeStr d.content_type))

/-- map_reduce_processor.py `MapReduceConfig`. -/
structure MapReduceConfig where
  max_workers : Nat := 3
  timeout : Nat := 120
  combine_results : Bool := true
  output_format : String := "markdown"
  parallel : Bool := true
deriving DecidableEq, Repr

/-- map_reduce_processor.py `MapReduceProcessor`: its own name and output
kind (used by the inherited `create_result`), the fixed list of child
processors, and the configuration object. -/
structure MapReduceProc where
  name : String
  output_type : ContentType
  processors : List ProcessorBase
  cfg : MapReduceConfig

/-- map_reduce_processor.py `MapReduceProcessor._process_with_processor`:
runs one child on the data, catching a raised exception and converting it
into a failed envelope built with the child's `create_result` (hence the
child's `output_type`) and an error message carrying the child's name.
Returns the child's name paired with the result. -/
def processWith (p : ProcessorBase) (d : PipelineData) : String × ProcessorResult :=
  match p.run d with
  | .ok r => (p.name, r)
  | .error e =>
      (p.name,
       createResult p.output_type d none none false
         (some ("Error in " ++ p.name ++ ": " ++ e)))

/-- One collected entry of the fan-out loop
(map_reduce_processor.py `process`, lines 152-170): the child's result with
`metadata["processor"]` set to the child's name. -/
def tagResult (p : ProcessorBase) (d : PipelineData) : ProcessorResult :=
  let nr := processWith p d
  { nr.2 with data :=
      { nr.2.data with metadata := metaInsert "processor" nr.1 nr.2.data.metadata } }

/-- Section tag read back while combining
(map_reduce_processor.py `_combine_results`):
`result.data.metadata.get("processor", "Unknown")`. -/
def sectionTag (r : ProcessorResult) : String :=
  (metaLookup "processor" r.data.metadata).getD "Unknown"

/-- Model name read while combining:
`result.data.metadata.get("model", "")`. -/
def sectionModel (r : ProcessorResult) : String :=
  (metaLookup "model" r.data.metadata).getD ""

/-- One section of the combined markdown document
(map_reduce_processor.py `_combine_results`, loop body): a header tagged
with the section tag (plus the model name when present, which in Python is
the truthiness test `if model_name:`), the content, the latency line, and
the separator.  The abstract `Nat` metric replaces the `{:.2f}` float
rendering. -/
def sectionRest (r : ProcessorResult) : String :=
  (if sectionModel r ≠ "" then " (" ++ sectionModel r ++ ")" else "")
    ++ "\n\n"
    ++ r.data.content ++ "\n\n"
    ++ "*Processed in " ++ toString r.metrics.execution_time_ms ++ "ms*\n\n"
    ++ "---\n\n"

def sectionBlock (r : ProcessorResult) : String :=
  "## " ++ sectionTag r ++ sectionRest r

/-- map_reduce_processor.py `MapReduceProcessor._combine_results`: the
markdown branch accumulates a header followed by one section per result
(the accumulating `for` loop is rendered as a map-join); the non-markdown
branch joins the contents with blank lines. -/
def combineResults (cfg : MapReduceConfig) (results : List ProcessorResult) : String :=
  if cfg.output_format = "markdown" then
    "# Combined Results\n\n" ++ String.join (results.map sectionBlock)
  else
    String.intercalate "\n\n" (results.map (fun r => r.data.content))

/-- map_reduce_processor.py `process`, lines 172-199 (shared tail after the
results are collected): combine when enabled and results exist, otherwise
first successful (else first) result, otherwise an explicit failure
envelope.  The Python `if combine and results / elif results / else` chain
is rendered by first splitting on emptiness of the collected list. -/
def mapReduceFinish (self : MapReduceProc) (d : PipelineData)
    (collected : List ProcessorResult) : ProcessorResult :=
  match collected with
  | [] =>
      createResult self.output_type d none none false
        (some "No results from any processor")
  | r0 :: _ =>
      if self.cfg.combine_results then
        createResult self.output_type d (some (combineResults self.cfg collected))
          none true none
      else
        match collected.find? (fun r => r.success) with
        | some r => r
        | none => r0

/-- Results collected by the sequential branch of
map_reduce_processor.py `process` (lines 161-170): children in list
order. -/
def collectSeq (self : MapReduceProc) (d : PipelineData) : List ProcessorResult :=
  self.processors.map (fun p => tagResult p d)

/-- Results collected by the parallel branch of
map_reduce_processor.py `process` (lines 140-160): children in completion
order.  The completion order is an environment choice and enters as the
index list `order`. -/
def collectPar (self : MapReduceProc) (d : PipelineData)
    (order : List (Fin self.processors.length)) : List ProcessorResult :=
  (order.map (fun i => self.processors.get i)).map (fun p => tagResult p d)

/-- Parallel branch of map_reduce_processor.py `process`: iterating
`as_completed(futures, timeout=...)` raises a
`concurrent.futures.TimeoutError` when the overall timeout elapses before
every child finishes; that exception is not caught inside `process`
(`track_metrics` re-raises), so the whole invocation raises and the
partially collected results are discarded.  The environment choice
"did the timeout elapse before all children finished" enters as
`timedOut`. -/
def mapReducePar (self : MapReduceProc) (d : PipelineData)
    (order : List (Fin self.processors.length)) (timedOut : Bool) :
    Except String ProcessorResult :=
  if timedOut then
    Except.error "concurrent.futures.TimeoutError: futures unfinished"
  else
    Except.ok (mapReduceFinish self d (collectPar self d order))

/-- Sequential branch of map_reduce_processor.py `process` followed by the
shared tail. -/
def mapReduceSeq (self : MapReduceProc) (d : PipelineData) : ProcessorResult :=
  mapReduceFinish self d (collectSeq self d)

/-- map_reduce_processor.py `MapReduceProcessor.process`: dispatches on
`config.parallel`.  `order` and `timedOut` are only meaningful in parallel
mode. -/
def mapReduceProcess (self : MapReduceProc) (d : PipelineData)
    (order : List (Fin self.processors.length)) (timedOut : Bool) :
    Except String ProcessorResult :=
  if self.cfg.parallel then mapReducePar self d order timedOut
  else Except.ok (mapReduceSeq self d)

/-- One row of the `articles` catalog table (database.py `Article`),
restricted to the fields the ingestion logic reads or writes.  The
`guid` column carries the unique item key. -/
structure ArticleRow where
  feedId : Nat
  title : String
  url : String
  guid : String
  description : String
  content : String
  processed : Bool
deriving DecidableEq, Repr

/-- A parsed feed entry as the per-entry loop of
rss_ingestor.py `_process_feed` consumes it.  `entryId` and `link` model
`entry.get("id")` / `entry.get("link")` (absent key = `none`); `content`
stands for the already extracted, optionally Jina-enhanced and
HTML-cleaned text (content extraction and enhancement only shape this
string and never the dedup key, so they are carried abstractly). -/
structure FeedEntry where
  entryId : Option String := none
  link : Option String := none
  title : Option String := none
  summary : Option String := none
  content : String := ""
deriving DecidableEq, Repr

/-- `guid = entry.get("id", entry.get("link", ""))`
(rss_ingestor.py line 196). -/
def guidOf (e : FeedEntry) : String :=
  match e.entryId with
  | some s => s
  | none => e.link.getD ""

/-- `article_url = entry.get("link", guid) if entry.get("link") else guid`
(rss_ingestor.py line 209): the link only wins when present and truthy. -/
def articleUrlOf (e : FeedEntry) (guid : String) : String :=
  match e.link with
  | some l => if l ≠ "" then l else guid
  | none => guid

/-- The `Article(...)` row built for a fresh guid
(rss_ingestor.py lines 246-259), restricted to the modelled columns. -/
def mkArticle (feedId : Nat) (e : FeedEntry) (guid : String) : ArticleRow :=
  { feedId := feedId
    title := e.title.getD "Untitled"
    url := articleUrlOf e guid
    guid := guid
    description := e.summary.getD ""
    content := e.content
    processed := false }

/-- Per-entry body of the loop in rss_ingestor.py `_process_feed`
(lines 195-264): skip when the guid is empty (`if not guid: continue`),
skip when an article with that guid already exists in the catalog
(`query(Article).filter_by(guid=guid).first()`), otherwise insert a new
row.  Returns the updated catalog and the number of rows added (0 or 1). -/
def processEntry (cat : List ArticleRow) (feedId : Nat) (e : FeedEntry) :
    List ArticleRow × Nat :=
  let guid := guidOf e
  if guid = "" then (cat, 0)
  else if cat.any (fun a => a.guid = guid) then (cat, 0)
  else (cat ++ [mkArticle feedId e guid], 1)

/-- The whole per-entry loop over the (sorted, truncated) entry list,
accumulating the new-article count. -/
def processEntries (cat : List ArticleRow) (feedId : Nat)
    (es : List FeedEntry) : List ArticleRow × Nat :=
  es.foldl (fun acc e =>
    let step := processEntry acc.1 feedId e
    (step.1, acc.2 + step.2)) (cat, 0)

/-- Records surfaced by rss_ingestor.py `ingest` for one feed
(lines 128-135): only when the poll reported at least one new article does
it surface the feed's unprocessed rows
(`filter_by(feed_id=feed.id, processed=False)`). -/
def surfacedRecords (cat : List ArticleRow) (feedId : Nat)
    (newCount : Nat) : List ArticleRow :=
  if newCount > 0 then
    cat.filter (fun a => a.feedId = feedId && !a.processed)
  else []

/-- Feed health columns of the `feeds` table (database.py `Feed`)
touched by the polling logic.  `last_checked` and `last_updated` are
abstract ticks. -/
structure FeedState where
  muted : Bool := false
  muted_reason : Option String := none
  error_count : Nat := 0
  no_entries_count : Nat := 0
  last_error : Option String := none
  last_checked : Nat := 0
  last_updated : Nat := 0
  article_count : Nat := 0
deriving DecidableEq, Repr

/-- Outcome of one poll of a feed as `_process_feed` experiences it:
`success k` means `_get_feed_entries` returned entries and the entry loop
completed, adding `k` new articles; `empty` means `_get_feed_entries`
returned an empty list (which is also where swallowed fetch failures
land); `failure e` means an exception with message `e` was raised inside
the `try` block and caught by the `except` branch. -/
inductive PollOutcome where
  | success (newArticles : Nat)
  | empty
  | failure (e : String)
deriving DecidableEq, Repr

/-- Health-state transition of rss_ingestor.py `_process_feed`
(lines 158-291): always stamps `last_checked`; the empty branch increments
`no_entries_count` and logs the repeated-empty warning only when the
incremented counter exceeds 5; the success branch resets
`no_entries_count`, `error_count` and `last_error` and updates the
statistics; the exception branch increments `error_count`, records
`last_error`, and on reaching 5 consecutive errors sets `muted` with a
reason carrying the last error text.  The returned Bool records whether
the repeated-empty warning fired. -/
def processFeedHealth (s : FeedState) (now : Nat) (o : PollOutcome) :
    FeedState × Bool :=
  let s1 := { s with last_checked := now }
  match o with
  | .empty =>
      let s2 := { s1 with no_entries_count := s1.no_entries_count + 1 }
      (s2, decide (s2.no_entries_count > 5))
  | .success k =>
      let s2 := { s1 with no_entries_count := 0 }
      let s3 :=
        if k > 0 then
          { s2 with last_updated := now, article_count := s2.article_count + k }
        else s2
      ({ s3 with error_count := 0, last_error := none }, false)
  | .failure e =>
      let s2 := { s1 with error_count := s1.error_count + 1, last_error := some e }
      if s2.error_count ≥ 5 then
        ({ s2 with
            muted := true
            muted_reason := some ("Auto-muted after " ++ toString s2.error_count
              ++ " consecutive errors. Last error: " ++ e) }, true)
      else (s2, false)

/-- One scheduled poll of a feed as rss_ingestor.py `ingest` drives it
(lines 114-125): a muted feed is skipped before any fetch is attempted
(`if feed.muted: continue`).  Returns the new state, whether a fetch was
attempted, and whether the repeated-empty warning fired. -/
def pollFeed (s : FeedState) (now : Nat) (o : PollOutcome) :
    FeedState × Bool × Bool :=
  if s.muted then (s, false, false)
  else
    let r := processFeedHealth s now o
    (r.1, true, r.2)

/-- A sequence of scheduled polls, folding `pollFeed` over timestamped
outcomes. -/
def pollSeq (s : FeedState) (polls : List (Nat × PollOutcome)) : FeedState :=
  polls.foldl (fun st p => (pollFeed st p.1 p.2).1) s

/-- imessage_output.py `IMessageOutputConfig`. -/
structure IMessageConfig where
  max_length : Nat := 2000
  truncate_long_messages : Bool := true
  split_long_messages : Bool := false
  add_prefix : Option String := none
  add_suffix : Option String := none
deriving DecidableEq, Repr

/-- Python `str.rfind(pat)` restricted to a character list: the highest
index at which `pat` occurs as a substring, `none` when it does not occur
(Python returns -1 there). -/
def rfindSub (s pat : List Char) : Option Nat :=
  ((List.range (s.length + 1)).filter (fun i => pat.isPrefixOf (s.drop i))).getLast?

/-- Break-point search of imessage_output.py `output` (lines 154-160) on
the window `remaining[:chunk_size]`: last blank line, else last newline,
else last sentence-ending period-space, else a hard cut at the limit. -/
def breakPoint (window : List Char) (chunkSize : Nat) : Nat :=
  match rfindSub window ['\n', '\n'] with
  | some i => i
  | none =>
    match rfindSub window ['\n'] with
    | some i => i
    | none =>
      match rfindSub window ['.', ' '] with
      | some i => i
      | none => chunkSize

/-- The chunking `while` loop of imessage_output.py `output`
(lines 148-163), made total with fuel: each pass emits
`remaining[:break_point]` and continues on
`remaining[break_point:].lstrip()`.  A `none` result means the loop did
not finish within the given fuel (the Python loop can in fact run forever,
e.g. when the only break point found is 0 and no whitespace follows). -/
def splitLoop (chunkSize : Nat) : Nat → List Char → Option (List (List Char))
  | 0, remaining => if remaining.isEmpty then some [] else none
  | fuel + 1, remaining =>
      if remaining.isEmpty then some []
      else if remaining.length ≤ chunkSize then some [remaining]
      else
        let bp := breakPoint (remaining.take chunkSize) chunkSize
        let chunk := remaining.take bp
        let rest := (remaining.drop bp).dropWhile Char.isWhitespace
        (splitLoop chunkSize fuel rest).map (fun cs => chunk :: cs)

/-- The chunk list computed by the split branch of `output`: enough fuel
that `none` exactly captures a non-terminating Python loop (a terminating
run shortens `remaining` on every pass). -/
def splitMessage (maxLength : Nat) (msg : List Char) : Option (List (List Char)) :=
  splitLoop maxLength (msg.length + 1) msg

/-- The chunk actually delivered (imessage_output.py lines 167-174): when
more than one chunk exists, a part-number header is prepended. -/
def deliveredChunk (i total : Nat) (chunk : List Char) : List Char :=
  if total > 1 then
    ("[Part " ++ toString (i + 1) ++ "/" ++ toString total ++ "]\n\n").data ++ chunk
  else chunk

/-- imessage_output.py `_format_message`: optional prefix and suffix
(Python truthiness: `None` and the empty string are skipped), then the
truncation branch when the length exceeds the maximum and truncation is
enabled.  `content[:max_length - 20]` with a Python negative slice bound
(max_length < 20) drops characters from the end. -/
def formatMessage (cfg : IMessageConfig) (content : List Char) : List Char :=
  let c1 :=
    match cfg.add_prefix with
    | some p => if p ≠ "" then p.data ++ ('\n' :: '\n' :: content) else content
    | none => content
  let c2 :=
    match cfg.add_suffix with
    | some sfx => if sfx ≠ "" then c1 ++ ('\n' :: '\n' :: sfx.data) else c1
    | none => c1
  if c2.length > cfg.max_length ∧ cfg.truncate_long_messages then
    (if cfg.max_length ≥ 20 then c2.take (cfg.max_length - 20)
     else c2.take (c2.length - (20 - cfg.max_length)))
      ++ "...\n[Message truncated]".data
  else c2

/-- Chunks interleaved with the whitespace runs lost at chunk boundaries:
`interleave [c1, c2, ...] [s1, s2, ...] = c1 ++ s1 ++ c2 ++ s2 ++ ...`. -/
def interleave : List (List Char) → List (List Char) → List Char
  | [], _ => []
  | c :: cs, [] => c ++ interleave cs []
  | c :: cs, s :: ss => c ++ s ++ interleave cs ss

/-- The write-policy flags of obsidian_output.py `ObsidianOutputConfig`. -/
structure ObsidianFlags where
  append : Bool := false
  prepend : Bool := false
  overwrite : Bool := false
deriving DecidableEq, Repr

/-- The four ways obsidian_output.py `output` can write when the target
exists, plus the fresh-file case. -/
inductive WritePolicy where
  | append
  | prepend
  | overwrite
  | sibling
  | fresh
deriving DecidableEq, Repr

/-- The branch obsidian_output.py `output` (lines 219-262) selects:
existence first, then append / prepend / overwrite in that priority
order, with the timestamp-suffixed sibling as the default. -/
def selectedPolicy (flags : ObsidianFlags) (fileExists : Bool) : WritePolicy :=
  if !fileExists then .fresh
  else if flags.append then .append
  else if flags.prepend then .prepend
  else if flags.overwrite then .overwrite
  else .sibling

/-- The sibling path built in the default branch (lines 246-252):
`os.path.splitext` strips the `.md` extension that `_get_file_path`
guarantees, and `<stem>_<timestamp>.md` is assembled in the same
directory.  (The model drops the final 3 characters, which coincides with
`splitext` for every path whose basename properly ends in `.md`.) -/
def siblingPath (filePath timestamp : String) : String :=
  filePath.dropRight 3 ++ "_" ++ timestamp ++ ".md"

/-- A file system: path to contents. -/
def FS : Type := String → Option String

/-- Writing a file in mode `w` (create or replace). -/
def fsWrite (p c : String) (fs : FS) : FS :=
  fun q => if q = p then some c else fs q

/-- obsidian_output.py `output`, lines 219-262: dispatch on existence and
the three flags; append opens in mode `a` (adds a blank line and the
content), prepend rereads and rewrites, overwrite rewrites, and the
default branch writes the formatted content to a timestamp-suffixed
sibling, leaving the original untouched. -/
def obsidianWrite (flags : ObsidianFlags) (fs : FS)
    (filePath content timestamp : String) : FS :=
  match fs filePath with
  | some existing =>
      if flags.append then fsWrite filePath (existing ++ "\n\n" ++ content) fs
      else if flags.prepend then fsWrite filePath (content ++ "\n\n" ++ existing) fs
      else if flags.overwrite then fsWrite filePath content fs
      else fsWrite (siblingPath filePath timestamp) content fs
  | none => fsWrite filePath content fs

/-- Concrete processor used by witnesses: accepts text, produces markdown. -/
def witnessProcessor : ProcessorBase :=
  { name := "summarizer"
    input_type := .one .text
    output_type := .markdown
    run := fun d => Except.ok (createResult .markdown d (some "summary") none true none) }

/-- Concrete child processor used by witnesses: always succeeds. -/
def witnessGoodChild : ProcessorBase :=
  { name := "good"
    input_type := .one .text
    output_type := .text
    run := fun d => Except.ok (createResult .text d (some "fine") none true none) }

/-- Concrete child processor used by witnesses: always raises. -/
def witnessBadChild : ProcessorBase :=
  { name := "bad"
    input_type := .one .text
    output_type := .text
    run := fun _ => Except.error "boom" }

/-- Concrete audio record used by witnesses. -/
def witnessAudioData : PipelineData :=
  { id := "d1", content := "clip.mp3", content_type := .audio, source := "cli" }

/-- Concrete text record used by witnesses. -/
def witnessTextData : PipelineData :=
  { id := "d2", content := "hello world", content_type := .text, source := "cli" }

/-- Concrete fan-out processor used by witnesses, with two children. -/
def witnessMapReduce : MapReduceProc :=
  { name := "compare"
    output_type := .text
    processors := [witnessGoodChild, witnessBadChild]
    cfg := {} }

/-- Concrete one-file file system used by witnesses. -/
def witnessFS : FS :=
  fun q => if q = "vault/note.md" then some "old text" else none

section Theorems

/-- Helper: the last element reported by getLast? is a member. -/
theorem mem_of_getLast?_eq_some {α : Type} {l : List α} {a : α}
    (h : l.getLast? = some a) : a ∈ l := by
  obtain ⟨hne, rfl⟩ := List.mem_getLast?_eq_getLast (Option.mem_def.mpr h)
  exact List.getLast_mem hne

/-- Helper: looking up a key right after dict-assigning it yields the
assigned value. -/
theorem metaLookup_metaInsert_self (k v : String) (m : List (String × String)) :
    metaLookup k (metaInsert k v m) = some v := by
  unfold metaInsert
  by_cases h : m.any (fun kv => kv.1 = k)
  · simp only [h, if_true]
    induction m with
    | nil => simp at h
    | cons hd tl ih =>
        by_cases hhd : hd.1 = k
        · simp [metaLookup, hhd]
        · have htl : tl.any (fun kv => kv.1 = k) := by
            simpa [List.any_cons, hhd] using h
          simpa [metaLookup, hhd] using ih htl
  · simp only [h, if_false]
    induction m with
    | nil => simp [metaLookup]
    | cons hd tl ih =>
        have hhd : ¬ hd.1 = k := by
          intro hk
          exact h (by simp [List.any_cons, hk])
        have htl : ¬ tl.any (fun kv => kv.1 = k) := by
          intro hk
          exact h (by simp [List.any_cons, hk])
        simpa [metaLookup, hhd] using ih htl

/-- Helper: `_process_with_processor` always reports the child's name. -/
theorem processWith_fst (p : ProcessorBase) (d : PipelineData) :
    (processWith p d).1 = p.name := by
  unfold processWith
  cases p.run d <;> rfl

/-- Helper: every collected fan-out entry is tagged with its child's
name. -/
theorem sectionTag_tagResult (p : ProcessorBase) (d : PipelineData) :
    sectionTag (tagResult p d) = p.name := by
  unfold sectionTag tagResult
  simp [metaLookup_metaInsert_self, processWith_fst]

/-- Claim C1: on a content-kind mismatch, the operation returns a failure
envelope with an explanatory message, and the carried record keeps the
input's identity, content, metadata (and source): no transformation is
attempted. -/
theorem claim_C1_mismatch_failfast (p : ProcessorBase) (d : PipelineData)
    (h : canProcess p d = false) :
    (opRun p d).success = false ∧
    (opRun p d).error_message =
      some ("Cannot handle data of type " ++ contentTypeStr d.content_type) ∧
    (opRun p d).data.id = d.id ∧
    (opRun p d).data.content = d.content ∧
    (opRun p d).data.metadata = d.metadata ∧
    (opRun p d).data.source = d.source := by
  simp [opRun, h, createResult]

/-- Witness for C1 at a concrete processor and record. -/
theorem claim_C1_mismatch_failfast_witness :
    canProcess witnessProcessor witnessAudioData = false ∧
    ((opRun witnessProcessor witnessAudioData).success = false ∧
     (opRun witnessProcessor witnessAudioData).error_message =
       some ("Cannot handle data of type "
         ++ contentTypeStr witnessAudioData.content_type) ∧
     (opRun witnessProcessor witnessAudioData).data.id = witnessAudioData.id ∧
     (opRun witnessProcessor witnessAudioData).data.content = witnessAudioData.content ∧
     (opRun witnessProcessor witnessAudioData).data.metadata = witnessAudioData.metadata ∧
     (opRun witnessProcessor witnessAudioData).data.source = witnessAudioData.source) :=
  ⟨rfl, claim_C1_mismatch_failfast witnessProcessor witnessAudioData rfl⟩

/-- Claim C10: a result built through `create_result` with no explicit kind
carries the processor's declared output kind on its record, whatever the
success flag — in particular a failure envelope's record is retagged with
the output kind rather than keeping the input's content kind. -/
theorem claim_C10_result_retagged_output_kind (outputType : ContentType)
    (d : PipelineData) (content : Option String) (success : Bool)
    (errorMessage : Option String) :
    (createResult outputType d content none success errorMessage).data.content_type
      = outputType := rfl

/-- Claim C2: presenting the same feed entry a second time inserts no new
catalog row and, because the new-article count is zero, surfaces no
pipeline record. -/
theorem claim_C2_duplicate_guid_noop (cat : List ArticleRow) (feedId : Nat)
    (e : FeedEntry) :
    processEntry (processEntry cat feedId e).1 feedId e
      = ((processEntry cat feedId e).1, 0) ∧
    surfacedRecords (processEntry (processEntry cat feedId e).1 feedId e).1 feedId
      (processEntry (processEntry cat feedId e).1 feedId e).2 = [] := by
  by_cases hg : guidOf e = ""
  · constructor
    · simp [processEntry, hg]
    · simp [processEntry, hg, surfacedRecords]
  · by_cases hmem : cat.any (fun a => a.guid = guidOf e)
    · constructor
      · simp [processEntry, hg, hmem]
      · simp [processEntry, hg, hmem, surfacedRecords]
    · have hsecond :
        processEntry (cat ++ [mkArticle feedId e (guidOf e)]) feedId e
          = (cat ++ [mkArticle feedId e (guidOf e)], 0) := by
        simp [processEntry, hg, List.any_append, mkArticle]
      constructor
      · simpa [processEntry, hg, hmem] using hsecond
      · simp [processEntry, hg, hmem, surfacedRecords, mkArticle, List.any_append]

/-- Claim C9: when the target exists and none of append/prepend/overwrite
is enabled, the content lands in a timestamp-suffixed sibling and the
original file (indeed every other path) is untouched; and the priority
order append, prepend, overwrite, sibling governs which single branch
writes. -/
theorem claim_C9_default_sibling_write (flags : ObsidianFlags) (fs : FS)
    (filePath content ts orig : String)
    (hex : fs filePath = some orig)
    (ha : flags.append = false) (hp : flags.prepend = false)
    (ho : flags.overwrite = false)
    (hne : siblingPath filePath ts ≠ filePath) :
    obsidianWrite flags fs filePath content ts (siblingPath filePath ts)
      = some content ∧
    obsidianWrite flags fs filePath content ts filePath = some orig ∧
    (∀ q, q ≠ siblingPath filePath ts →
      obsidianWrite flags fs filePath content ts q = fs q) ∧
    selectedPolicy flags true = WritePolicy.sibling ∧
    (∀ fl : ObsidianFlags, fl.append = true →
      obsidianWrite fl fs filePath content ts filePath
        = some (orig ++ "\n\n" ++ content)) ∧
    (∀ fl : ObsidianFlags, fl.append = false → fl.prepend = true →
      obsidianWrite fl fs filePath content ts filePath
        = some (content ++ "\n\n" ++ orig)) ∧
    (∀ fl : ObsidianFlags, fl.append = false → fl.prepend = false →
      fl.overwrite = true →
      obsidianWrite fl fs filePath content ts filePath = some content) := by
  refine ⟨?_, ?_, ?_, ?_, ?_, ?_, ?_⟩
  · simp [obsidianWrite, hex, ha, hp, ho, fsWrite]
  · simp [obsidianWrite, hex, ha, hp, ho, fsWrite, Ne.symm hne]
  · intro q hq
    simp [obsidianWrite, hex, ha, hp, ho, fsWrite, hq]
  · simp [selectedPolicy, ha, hp, ho]
  · intro fl hfa
    simp [obsidianWrite, hex, hfa, fsWrite]
  · intro fl hfa hfp
    simp [obsidianWrite, hex, hfa, hfp, fsWrite]
  · intro fl hfa hfp hfo
    simp [obsidianWrite, hex, hfa, hfp, hfo, fsWrite]

/-- Witness for C9 at a concrete vault state. -/
theorem claim_C9_default_sibling_write_witness :
    witnessFS "vault/note.md" = some "old text" ∧
    (obsidianWrite {} witnessFS "vault/note.md" "fresh" "20240101120000"
        (siblingPath "vault/note.md" "20240101120000") = some "fresh" ∧
     obsidianWrite {} witnessFS "vault/note.md" "fresh" "20240101120000"
        "vault/note.md" = some "old text" ∧
     (∀ q, q ≠ siblingPath "vault/note.md" "20240101120000" →
       obsidianWrite {} witnessFS "vault/note.md" "fresh" "20240101120000" q
         = witnessFS q) ∧
     selectedPolicy {} true = WritePolicy.sibling ∧
     (∀ fl : ObsidianFlags, fl.append = true →
       obsidianWrite fl witnessFS "vault/note.md" "fresh" "20240101120000"
         "vault/note.md" = some ("old text" ++ "\n\n" ++ "fresh")) ∧
     (∀ fl : ObsidianFlags, fl.append = false → fl.prepend = true →
       obsidianWrite fl witnessFS "vault/note.md" "fresh" "20240101120000"
         "vault/note.md" = some ("fresh" ++ "\n\n" ++ "old text")) ∧
     (∀ fl : ObsidianFlags, fl.append = false → fl.prepend = false →
       fl.overwrite = true →
       obsidianWrite fl witnessFS "vault/note.md" "fresh" "20240101120000"
         "vault/note.md" = some "fresh")) :=
  ⟨rfl,
   claim_C9_default_sibling_write {} witnessFS "vault/note.md" "fresh"
     "20240101120000" "old text" rfl rfl rfl rfl (by decide)⟩

/-- Claim C6: five consecutive error polls of an unmuted, error-free feed
set the muted flag, with a reason carrying the last error text, and every
later poll is skipped before any fetch (the state machine offers no
unmuting transition). -/
theorem claim_C6_five_errors_mute (s : FeedState)
    (hm : s.muted = false) (hc : s.error_count = 0)
    (n1 n2 n3 n4 n5 : Nat) (e1 e2 e3 e4 e5 : String) :
    (pollSeq s [(n1, .failure e1), (n2, .failure e2), (n3, .failure e3),
                (n4, .failure e4), (n5, .failure e5)]).muted = true ∧
    (pollSeq s [(n1, .failure e1), (n2, .failure e2), (n3, .failure e3),
                (n4, .failure e4), (n5, .failure e5)]).muted_reason
      = some ("Auto-muted after 5 consecutive errors. Last error: " ++ e5) ∧
    (∀ now o,
      pollFeed (pollSeq s [(n1, .failure e1), (n2, .failure e2), (n3, .failure e3),
                           (n4, .failure e4), (n5, .failure e5)]) now o
        = (pollSeq s [(n1, .failure e1), (n2, .failure e2), (n3, .failure e3),
                      (n4, .failure e4), (n5, .failure e5)], false, false)) := by
  have hseq :
      pollSeq s [(n1, .failure e1), (n2, .failure e2), (n3, .failure e3),
                 (n4, .failure e4), (n5, .failure e5)]
        = { muted := true
            muted_reason :=
              some ("Auto-muted after 5 consecutive errors. Last error: " ++ e5)
            error_count := 5
            no_entries_count := s.no_entries_count
            last_error := some e5
            last_checked := n5
            last_updated := s.last_updated
            article_count := s.article_count } := by
    have h5 : ("Auto-muted after " ++ toString 5
        ++ " consecutive errors. Last error: " : String)
        = "Auto-muted after 5 consecutive errors. Last error: " := rfl
    simp [pollSeq, pollFeed, processFeedHealth, hm, hc, h5]
  refine ⟨by rw [hseq], by rw [hseq], ?_⟩
  intro now o
  rw [hseq]
  simp [pollFeed]

/-- Witness for C6 from a fresh feed state. -/
theorem claim_C6_five_errors_mute_witness :
    (pollSeq {} [(1, .failure "a"), (2, .failure "b"), (3, .failure "c"),
                 (4, .failure "d"), (5, .failure "down")]).muted = true ∧
    (pollSeq {} [(1, .failure "a"), (2, .failure "b"), (3, .failure "c"),
                 (4, .failure "d"), (5, .failure "down")]).muted_reason
      = some ("Auto-muted after 5 consecutive errors. Last error: " ++ "down") ∧
    (∀ now o,
      pollFeed (pollSeq {} [(1, .failure "a"), (2, .failure "b"), (3, .failure "c"),
                            (4, .failure "d"), (5, .failure "down")]) now o
        = (pollSeq {} [(1, .failure "a"), (2, .failure "b"), (3, .failure "c"),
                       (4, .failure "d"), (5, .failure "down")], false, false)) :=
  claim_C6_five_errors_mute {} rfl rfl 1 2 3 4 5 "a" "b" "c" "d" "down"

/-- Claim C7 counterexample: five consecutive zero-entry polls of a fresh
feed leave it unmuted, but contrary to the claim no warning has fired yet
on the fifth poll (the code warns only once the counter exceeds five); the
sixth empty poll is the first to warn. -/
theorem claim_C7_counterexample :
    (pollFeed (pollSeq {} [(1, .empty), (2, .empty), (3, .empty), (4, .empty)])
        5 .empty).2.2 = false ∧
    (pollFeed (pollSeq {} [(1, .empty), (2, .empty), (3, .empty), (4, .empty)])
        5 .empty).1.muted = false ∧
    (pollFeed (pollSeq {} [(1, .empty), (2, .empty), (3, .empty), (4, .empty),
        (5, .empty)]) 6 .empty).2.2 = true := by
  decide

/-- Claim C7 (amended): an empty poll of an unmuted feed never touches the
mute flag, the mute reason, or the error fields — only the consecutive
empty counter (and the last-checked stamp) changes — and the repeated
empty warning fires exactly when the incremented counter exceeds five,
i.e. first on the sixth consecutive empty poll. -/
theorem claim_C7_empty_poll_never_mutes (s : FeedState) (now : Nat)
    (hm : s.muted = false) :
    (pollFeed s now .empty).1.muted = s.muted ∧
    (pollFeed s now .empty).1.muted_reason = s.muted_reason ∧
    (pollFeed s now .empty).1.error_count = s.error_count ∧
    (pollFeed s now .empty).1.last_error = s.last_error ∧
    (pollFeed s now .empty).1.no_entries_count = s.no_entries_count + 1 ∧
    ((pollFeed s now .empty).2.2 = true ↔ s.no_entries_count + 1 > 5) := by
  simp [pollFeed, processFeedHealth, hm]

/-- Witness for the amended C7 on the fifth consecutive empty poll. -/
theorem claim_C7_empty_poll_never_mutes_witness :
    ((pollFeed { no_entries_count := 4 } 5 .empty).1.muted
        = FeedState.muted { no_entries_count := 4 } ∧
     (pollFeed { no_entries_count := 4 } 5 .empty).1.muted_reason
        = FeedState.muted_reason { no_entries_count := 4 } ∧
     (pollFeed { no_entries_count := 4 } 5 .empty).1.error_count
        = FeedState.error_count { no_entries_count := 4 } ∧
     (pollFeed { no_entries_count := 4 } 5 .empty).1.last_error
        = FeedState.last_error { no_entries_count := 4 } ∧
     (pollFeed { no_entries_count := 4 } 5 .empty).1.no_entries_count
        = FeedState.no_entries_count { no_entries_count := 4 } + 1 ∧
     ((pollFeed { no_entries_count := 4 } 5 .empty).2.2 = true ↔
        FeedState.no_entries_count { no_entries_count := 4 } + 1 > 5)) :=
  claim_C7_empty_poll_never_mutes { no_entries_count := 4 } 5 rfl

/-- Claim C4 counterexample: a parallel fan-out invocation whose overall
timeout elapses does not return a result envelope — the timeout exception
raised by the as_completed iteration escapes `process`. -/
theorem claim_C4_counterexample :
    mapReduceProcess witnessMapReduce witnessTextData [] true
      = Except.error "concurrent.futures.TimeoutError: futures unfinished" := rfl

/-- Claim C4 (amended): in parallel mode, when the overall timeout elapses
before all children finish, `process` raises the timeout error — finished
and unfinished children's results alike are discarded, and the caller
receives the exception rather than an envelope. -/
theorem claim_C4_timeout_raises (self : MapReduceProc) (d : PipelineData)
    (order : List (Fin self.processors.length))
    (hpar : self.cfg.parallel = true) :
    mapReduceProcess self d order true
      = Except.error "concurrent.futures.TimeoutError: futures unfinished" := by
  simp [mapReduceProcess, hpar, mapReducePar]

/-- Witness for the amended C4 at a concrete invocation. -/
theorem claim_C4_timeout_raises_witness :
    mapReduceProcess witnessMapReduce witnessTextData [] true
      = Except.error "concurrent.futures.TimeoutError: futures unfinished" :=
  claim_C4_timeout_raises witnessMapReduce witnessTextData [] rfl

/-- Helper: mapping a function pointwise over the index enumeration is
mapping it over the list. -/
theorem finRange_map_comp {α β : Type} (l : List α) (f : α → β) :
    (List.finRange l.length).map (fun i => f (l.get i)) = l.map f := by
  have h : (fun i => f (l.get i)) = f ∘ l.get := rfl
  rw [h, ← List.map_map, List.finRange_map_get]

/-- Helper: the combine branch of the shared result tail, on a nonempty
collected list with markdown format. -/
theorem mapReduceFinish_combine (self : MapReduceProc) (d : PipelineData)
    (collected : List ProcessorResult)
    (hcomb : self.cfg.combine_results = true)
    (hfmt : self.cfg.output_format = "markdown")
    (hne : collected ≠ []) :
    mapReduceFinish self d collected
      = createResult self.output_type d
          (some ("# Combined Results\n\n" ++ String.join (collected.map sectionBlock)))
          none true none := by
  cases collected with
  | nil => exact absurd rfl hne
  | cons r0 rest => simp [mapReduceFinish, hcomb, combineResults, hfmt]

/-- Helper: sequentially collected results are tagged with the children's
names, in list order. -/
theorem collectSeq_tags (self : MapReduceProc) (d : PipelineData) :
    (collectSeq self d).map sectionTag = self.processors.map (fun p => p.name) := by
  simp [collectSeq, List.map_map, Function.comp, sectionTag_tagResult]

/-- Helper: parallel-collected results are tagged with the children's
names, in completion order. -/
theorem collectPar_tags (self : MapReduceProc) (d : PipelineData)
    (order : List (Fin self.processors.length)) :
    (collectPar self d order).map sectionTag
      = order.map (fun i => (self.processors.get i).name) := by
  simp [collectPar, List.map_map, Function.comp, sectionTag_tagResult]

/-- Helper: a child that raises yields a failed envelope carrying the
child's name in tag and message. -/
theorem tagResult_of_error (p : ProcessorBase) (d : PipelineData) (e : String)
    (h : p.run d = Except.error e) :
    (tagResult p d).success = false ∧
    (tagResult p d).error_message = some ("Error in " ++ p.name ++ ": " ++ e) := by
  simp [tagResult, processWith, h, createResult]

/-- Claim C3: with combining enabled (markdown format, the default) and
every child succeeding, a completed fan-out invocation returns a single
success envelope whose combined document is the fixed header followed by
exactly one section per child, each section tagged with that child's name
(in completion order in parallel mode, list order in sequential mode). -/
theorem claim_C3_combined_one_section_per_child (self : MapReduceProc)
    (d : PipelineData) (order : List (Fin self.processors.length))
    (timedOut : Bool) (res : ProcessorResult)
    (hcomb : self.cfg.combine_results = true)
    (hfmt : self.cfg.output_format = "markdown")
    (hne : self.processors ≠ [])
    (_hok : ∀ p ∈ self.processors, ∃ r, p.run d = Except.ok r ∧ r.success = true)
    (hord : self.cfg.parallel = true →
      order.Perm (List.finRange self.processors.length))
    (hres : mapReduceProcess self d order timedOut = Except.ok res) :
    res.success = true ∧ res.error_message = none ∧
    ∃ collected : List ProcessorResult,
      res.data.content
        = "# Combined Results\n\n" ++ String.join (collected.map sectionBlock) ∧
      collected.length = self.processors.length ∧
      (collected.map sectionTag).Perm (self.processors.map (fun p => p.name)) ∧
      ∀ r ∈ collected, ∃ rest, sectionBlock r = "## " ++ sectionTag r ++ rest := by
  by_cases hpar : self.cfg.parallel = true
  · have hordp := hord hpar
    rw [mapReduceProcess, if_pos hpar, mapReducePar] at hres
    cases timedOut with
    | true => simp at hres
    | false =>
        simp only [if_neg Bool.false_ne_true, Except.ok.injEq] at hres
        have hlen : (collectPar self d order).length = self.processors.length := by
          simp [collectPar, hordp.length_eq]
        have hcol_ne : collectPar self d order ≠ [] := by
          intro hnil
          apply hne
          have := hlen
          rw [hnil] at this
          exact List.length_eq_zero.mp this.symm
        rw [mapReduceFinish_combine self d (collectPar self d order) hcomb hfmt hcol_ne]
          at hres
        subst hres
        refine ⟨rfl, rfl, collectPar self d order, rfl, hlen, ?_, ?_⟩
        · rw [collectPar_tags, ← finRange_map_comp self.processors (fun p => p.name)]
          exact hordp.map (fun i => (self.processors.get i).name)
        · intro r _
          exact ⟨sectionRest r, rfl⟩
  · rw [mapReduceProcess, if_neg hpar, Except.ok.injEq] at hres
    have hcol_ne : collectSeq self d ≠ [] := by
      simp [collectSeq, hne]
    rw [mapReduceSeq,
      mapReduceFinish_combine self d (collectSeq self d) hcomb hfmt hcol_ne] at hres
    subst hres
    refine ⟨rfl, rfl, collectSeq self d, rfl, ?_, ?_, ?_⟩
    · simp [collectSeq]
    · rw [collectSeq_tags]
    · intro r _
      exact ⟨sectionRest r, rfl⟩

/-- Witness for C3: a sequential invocation with two succeeding children. -/
theorem claim_C3_combined_one_section_per_child_witness :
    ({ witnessMapReduce with
        processors := [witnessGoodChild, witnessGoodChild]
        cfg := { parallel := false } } : MapReduceProc).cfg.combine_results = true ∧
    (mapReduceSeq
      { witnessMapReduce with
        processors := [witnessGoodChild, witnessGoodChild]
        cfg := { parallel := false } } witnessTextData).success = true := by
  have h := claim_C3_combined_one_section_per_child
    { witnessMapReduce with
      processors := [witnessGoodChild, witnessGoodChild]
      cfg := { parallel := false } }
    witnessTextData [] false
    (mapReduceSeq
      { witnessMapReduce with
        processors := [witnessGoodChild, witnessGoodChild]
        cfg := { parallel := false } } witnessTextData)
    rfl rfl (by simp)
    (by
      intro p hp
      simp only [List.mem_cons, List.not_mem_nil, or_false] at hp
      rcases hp with hp | hp <;>
        exact ⟨createResult .text witnessTextData (some "fine") none true none,
          by rw [hp]; exact ⟨rfl, rfl⟩⟩)
    (by intro hcontr; simp at hcontr)
    (by rw [mapReduceProcess, if_neg (by simp)])
  exact ⟨rfl, h.1⟩

/-- Claim C8: when exactly one child raises and the others return, a
completed fan-out collection still holds one envelope per child (the
collected list is a permutation of the per-child envelopes), and the
failing child's envelope is unsuccessful, tagged with its name, and
carries its name in the error message. -/
theorem claim_C8_one_failure_never_aborts_siblings (self : MapReduceProc)
    (d : PipelineData) (order : List (Fin self.processors.length))
    (pre post : List ProcessorBase) (bad : ProcessorBase) (e : String)
    (collected : List ProcessorResult)
    (hsplit : self.processors = pre ++ bad :: post)
    (_hok : ∀ p ∈ pre ++ post, ∃ r, p.run d = Except.ok r)
    (hbad : bad.run d = Except.error e)
    (hord : self.cfg.parallel = true →
      order.Perm (List.finRange self.processors.length))
    (hcol : collected
      = if self.cfg.parallel then collectPar self d order else collectSeq self d) :
    collected.length = self.processors.length ∧
    collected.Perm (self.processors.map (fun p => tagResult p d)) ∧
    tagResult bad d ∈ collected ∧
    (tagResult bad d).success = false ∧
    sectionTag (tagResult bad d) = bad.name ∧
    (tagResult bad d).error_message = some ("Error in " ++ bad.name ++ ": " ++ e) := by
  have hperm : collected.Perm (self.processors.map (fun p => tagResult p d)) := by
    by_cases hpar : self.cfg.parallel = true
    · rw [hcol, if_pos hpar]
      have hcp : collectPar self d order
          = order.map (fun i => tagResult (self.processors.get i) d) := by
        simp [collectPar, List.map_map, Function.comp]
      rw [hcp, ← finRange_map_comp self.processors (fun p => tagResult p d)]
      exact (hord hpar).map (fun i => tagResult (self.processors.get i) d)
    · rw [hcol, if_neg hpar]
      exact (List.Perm.refl _)
  have hmem : tagResult bad d ∈ collected := by
    rw [hperm.mem_iff]
    exact List.mem_map_of_mem (fun p => tagResult p d)
      (by rw [hsplit]; exact List.mem_append_right pre (List.mem_cons_self bad post))
  have hfail := tagResult_of_error bad d e hbad
  refine ⟨?_, hperm, hmem, hfail.1, sectionTag_tagResult bad d, hfail.2⟩
  rw [hperm.length_eq, List.length_map]

/-- Witness for C8: a sequential invocation where the second of two
children raises. -/
theorem claim_C8_one_failure_never_aborts_siblings_witness :
    ((collectSeq
        { witnessMapReduce with cfg := { parallel := false } }
        witnessTextData).length
      = ({ witnessMapReduce with cfg := { parallel := false } }
          : MapReduceProc).processors.length ∧
     (collectSeq { witnessMapReduce with cfg := { parallel := false } }
        witnessTextData).Perm
       (({ witnessMapReduce with cfg := { parallel := false } }
          : MapReduceProc).processors.map (fun p => tagResult p witnessTextData)) ∧
     tagResult witnessBadChild witnessTextData ∈
       collectSeq { witnessMapReduce with cfg := { parallel := false } }
         witnessTextData ∧
     (tagResult witnessBadChild witnessTextData).success = false ∧
     sectionTag (tagResult witnessBadChild witnessTextData)
        = witnessBadChild.name ∧
     (tagResult witnessBadChild witnessTextData).error_message
        = some ("Error in " ++ witnessBadChild.name ++ ": " ++ "boom")) := by
  have h := claim_C8_one_failure_never_aborts_siblings
    { witnessMapReduce with cfg := { parallel := false } }
    witnessTextData []
    [witnessGoodChild] [] witnessBadChild "boom"
    (collectSeq { witnessMapReduce with cfg := { parallel := false } }
      witnessTextData)
    rfl
    (by
      intro p hp
      simp only [List.append_nil, List.mem_singleton] at hp
      exact ⟨createResult .text witnessTextData (some "fine") none true none,
        by rw [hp]; rfl⟩)
    rfl
    (by intro hcontr; simp at hcontr)
    (by rw [if_neg (by simp)])
  exact h

/-- Helper: an index reported by the rfind model lies within the searched
text. -/
theorem rfindSub_le (s pat : List Char) (i : Nat)
    (h : rfindSub s pat = some i) : i ≤ s.length := by
  have hmem := mem_of_getLast?_eq_some h
  have hrange := List.mem_of_mem_filter hmem
  exact Nat.lt_succ_iff.mp (List.mem_range.mp hrange)

/-- Helper: the chosen break point never exceeds the chunk size. -/
theorem breakPoint_le (window : List Char) (chunkSize : Nat)
    (hw : window.length ≤ chunkSize) : breakPoint window chunkSize ≤ chunkSize := by
  unfold breakPoint
  cases h1 : rfindSub window ['\n', '\n'] with
  | some i => exact le_trans (rfindSub_le _ _ _ h1) hw
  | none =>
    cases h2 : rfindSub window ['\n'] with
    | some i => exact le_trans (rfindSub_le _ _ _ h2) hw
    | none =>
      cases h3 : rfindSub window ['.', ' '] with
      | some i => exact le_trans (rfindSub_le _ _ _ h3) hw
      | none => exact le_refl chunkSize

/-- Helper: whenever the chunking loop terminates, every emitted chunk
fits in the chunk size, a nonempty input yields at least one chunk, and
the input text is exactly the chunks interleaved with the whitespace runs
stripped at each boundary. -/
theorem splitLoop_sound (chunkSize : Nat) (fuel : Nat) :
    ∀ (remaining : List Char) (chunks : List (List Char)),
      splitLoop chunkSize fuel remaining = some chunks →
      (∀ c ∈ chunks, c.length ≤ chunkSize) ∧
      (remaining ≠ [] → chunks ≠ []) ∧
      ∃ seps : List (List Char),
        seps.length = chunks.length ∧
        (∀ s ∈ seps, ∀ ch ∈ s, ch.isWhitespace = true) ∧
        interleave chunks seps = remaining := by
  induction fuel with
  | zero =>
      intro remaining chunks h
      simp only [splitLoop] at h
      by_cases hr : remaining.isEmpty
      · rw [if_pos hr] at h
        obtain rfl : ([] : List (List Char)) = chunks := Option.some.inj h
        have hnil : remaining = [] := List.isEmpty_iff.mp hr
        exact ⟨by simp, fun hcon => absurd hnil hcon, [], rfl, by simp,
          by simp [interleave, hnil]⟩
      · rw [if_neg hr] at h
        exact absurd h (by simp)
  | succ fuel ih =>
      intro remaining chunks h
      simp only [splitLoop] at h
      by_cases hr : remaining.isEmpty
      · rw [if_pos hr] at h
        obtain rfl : ([] : List (List Char)) = chunks := Option.some.inj h
        have hnil : remaining = [] := List.isEmpty_iff.mp hr
        exact ⟨by simp, fun hcon => absurd hnil hcon, [], rfl, by simp,
          by simp [interleave, hnil]⟩
      · rw [if_neg hr] at h
        by_cases hlen : remaining.length ≤ chunkSize
        · rw [if_pos hlen] at h
          obtain rfl : [remaining] = chunks := Option.some.inj h
          refine ⟨?_, fun _ => by simp, [[]], rfl, by simp, ?_⟩
          · intro c hc
            rw [List.mem_singleton.mp hc]
            exact hlen
          · simp [interleave]
        · rw [if_neg hlen] at h
          obtain ⟨tailChunks, hsplit, rfl⟩ := Option.map_eq_some'.mp h
          obtain ⟨hbounds, _, seps, hslen, hsws, hsint⟩ := ih _ _ hsplit
          have hbp : breakPoint (remaining.take chunkSize) chunkSize ≤ chunkSize :=
            breakPoint_le _ _ (by rw [List.length_take]; exact min_le_left _ _)
          refine ⟨?_, fun _ => by simp, ?_⟩
          · intro c hc
            rcases List.mem_cons.mp hc with hc | hc
            · rw [hc]
              calc (remaining.take (breakPoint (remaining.take chunkSize) chunkSize)).length
                  ≤ breakPoint (remaining.take chunkSize) chunkSize := by
                    rw [List.length_take]; exact min_le_left _ _
                _ ≤ chunkSize := hbp
            · exact hbounds c hc
          · refine ⟨((remaining.drop (breakPoint (remaining.take chunkSize) chunkSize)).takeWhile
                Char.isWhitespace) :: seps, by simp [hslen], ?_, ?_⟩
            · intro s hs ch hch
              rcases List.mem_cons.mp hs with hs | hs
              · rw [hs] at hch
                exact List.mem_takeWhile_imp hch
              · exact hsws s hs ch hch
            · show
                remaining.take (breakPoint (remaining.take chunkSize) chunkSize)
                  ++ (remaining.drop (breakPoint (remaining.take chunkSize) chunkSize)).takeWhile
                      Char.isWhitespace
                  ++ interleave tailChunks seps = remaining
              rw [hsint, List.append_assoc,
                List.takeWhile_append_dropWhile, List.take_append_drop]

/-- Claim C5 counterexample: at the over-long message
"aaaa\n\nbbbbbbbb" with maximum 10, the split yields the chunks "aaaa" and
"bbbbbbbb" whose concatenation does not reproduce the original (the blank
line is lost), and the first delivered chunk (with its part header) is
longer than the maximum; and at "aaaaaaaaaa  " (ten letters and two
trailing spaces, length 12 > 10) the split yields a single chunk, not more
than one. -/
theorem claim_C5_counterexample :
    splitMessage 10 "aaaa\n\nbbbbbbbb".data
      = some ["aaaa".data, "bbbbbbbb".data] ∧
    "aaaa".data ++ "bbbbbbbb".data ≠ "aaaa\n\nbbbbbbbb".data ∧
    (deliveredChunk 0 2 "aaaa".data).length > 10 ∧
    splitMessage 10 "aaaaaaaaaa  ".data = some ["aaaaaaaaaa".data] := by
  decide

/-- Claim C5 (amended): when the content exceeds the maximum and the
splitting loop terminates, it emits at least one chunk, every chunk's core
text (before the part header is prepended) fits within the maximum, and
the original content is reproduced by interleaving the chunks' core text
with the whitespace runs stripped at chunk boundaries — plain
concatenation reproduces the original only up to that lost whitespace. -/
theorem claim_C5_chunks_bounded_reassemble (maxLength : Nat) (msg : List Char)
    (chunks : List (List Char))
    (hover : maxLength < msg.length)
    (hsplit : splitMessage maxLength msg = some chunks) :
    chunks ≠ [] ∧
    (∀ c ∈ chunks, c.length ≤ maxLength) ∧
    ∃ seps : List (List Char),
      seps.length = chunks.length ∧
      (∀ s ∈ seps, ∀ ch ∈ s, ch.isWhitespace = true) ∧
      interleave chunks seps = msg := by
  obtain ⟨hbounds, hne, seps, hslen, hsws, hsint⟩ :=
    splitLoop_sound maxLength (msg.length + 1) msg chunks hsplit
  refine ⟨?_, hbounds, seps, hslen, hsws, hsint⟩
  apply hne
  intro hnil
  rw [hnil] at hover
  exact Nat.not_lt_zero maxLength hover

/-- Witness for the amended C5 at a concrete over-long message. -/
theorem claim_C5_chunks_bounded_reassemble_witness :
    5 < "aaaa bbb".data.length ∧
    (["aaaa ".data, "bbb".data] ≠ ([] : List (List Char)) ∧
     (∀ c ∈ [("aaaa ".data : List Char), "bbb".data], c.length ≤ 5) ∧
     ∃ seps : List (List Char),
       seps.length = [("aaaa ".data : List Char), "bbb".data].length ∧
       (∀ s ∈ seps, ∀ ch ∈ s, ch.isWhitespace = true) ∧
       interleave [("aaaa ".data : List Char), "bbb".data] seps = "aaaa bbb".data) :=
  ⟨by decide,
   claim_C5_chunks_bounded_reassemble 5 "aaaa bbb".data
     ["aaaa ".data, "bbb".data] (by decide) (by decide)⟩

end Theorems

end Pedster
